import Mathlib

set_option maxRecDepth 4000

/-!
Verification of the CHIP-8 interpreter core (`src/cpu.rs`) against its
natural-language specification.

The machine state and every instruction handler are translated from
`src/cpu.rs` (the module built by `main.rs`; `chip8.rs` is an unused
earlier draft).  Machine integers are modelled as `Nat` with explicit
`% 256` / `% 65536` wherever the Rust code wraps; array indexing that
would make the Rust program abort (out-of-bounds index, the `panic!`-free
reading: index panics) is modelled by returning `none`.  The random byte
drawn by the `Cxnn` instruction is passed in as an explicit oracle
argument.
-/

namespace Chip8Emu

/-- Wrapping 16-bit addition, the semantics of `u16` `+` in the source
(overflow wraps; the emulator never actually reaches the wrapping case
for the program counter because a fetch at `pc > 4094` aborts first). -/
def u16add (a b : Nat) : Nat := (a + b) % 65536

/-- Wrapping 16-bit subtraction (`u16` `-` in the source, release-profile
wrapping semantics). -/
def u16sub (a b : Nat) : Nat := (a + 65536 - b % 65536) % 65536

/-- Wrapping 8-bit subtraction (`u8` `-` in the source, release-profile
wrapping semantics). -/
def u8sub (a b : Nat) : Nat := (a + 256 - b % 256) % 256

/-- The interpreter state: field for field the `Chip8` struct of
`src/cpu.rs`.  Fixed-size arrays (`memory`, `v`, `gfx`, `stack`, `keys`)
are modelled as total functions from indices; the code only ever uses
in-range indices except where noted, and out-of-range accesses that
would abort the Rust program are modelled as `none` at the operations
that perform them. -/
structure Chip8 where
  opcode : Nat
  memory : Nat → Nat
  v : Nat → Nat
  i : Nat
  pc : Nat
  gfx : Nat → Nat → Nat
  delay_timer : Nat
  sound_timer : Nat
  stack : Nat → Nat
  sp : Nat
  keys : Nat → Nat
  screen_updated : Bool

/-- The `CHIP8_FONTSET` constant: 16 glyphs of 5 bytes each. -/
def CHIP8_FONTSET : List Nat :=
  [0xF0, 0x90, 0x90, 0x90, 0xF0,
   0x20, 0x60, 0x20, 0x20, 0x70,
   0xF0, 0x10, 0xF0, 0x80, 0xF0,
   0xF0, 0x10, 0xF0, 0x10, 0xF0,
   0x90, 0x90, 0xF0, 0x10, 0x10,
   0xF0, 0x80, 0xF0, 0x10, 0xF0,
   0xF0, 0x80, 0xF0, 0x90, 0xF0,
   0xF0, 0x10, 0x20, 0x40, 0x40,
   0xF0, 0x90, 0xF0, 0x90, 0xF0,
   0xF0, 0x90, 0xF0, 0x10, 0xF0,
   0xF0, 0x90, 0xF0, 0x90, 0x90,
   0xE0, 0x90, 0xE0, 0x90, 0xE0,
   0xF0, 0x80, 0x80, 0x80, 0xF0,
   0xE0, 0x90, 0x90, 0x90, 0xE0,
   0xF0, 0x80, 0xF0, 0x80, 0xF0,
   0xF0, 0x80, 0xF0, 0x80, 0x80]

/-- `Chip8::default()`: zero state, `pc = 0x200`, font set copied to
memory cells `0..80`. -/
def chip8Default : Chip8 where
  opcode := 0
  memory := (List.range 80).foldl
    (fun m j => Function.update m j (CHIP8_FONTSET.getD j 0)) (fun _ => 0)
  v := fun _ => 0
  i := 0
  pc := 0x200
  gfx := fun _ _ => 0
  delay_timer := 0
  sound_timer := 0
  stack := fun _ => 0
  sp := 0
  keys := fun _ => 0
  screen_updated := false

/-- `Chip8::set_keys`: the host replaces the whole 16-entry key array. -/
def set_keys (ks : Nat → Nat) (st : Chip8) : Chip8 := { st with keys := ks }

/-- `Chip8::draw_flag`: reads and clears the `screen_updated` latch;
this is the state part of that operation. -/
def draw_flag (st : Chip8) : Chip8 := { st with screen_updated := false }

/-- `Chip8::load_game`.  The argument is the outcome of reading the ROM:
`none` when `File::open` or `file.read` failed (both early-return before
any memory write), `some bytes` for a successful read of the file
contents.  `file.read` into the fixed `[u8; 3584]` buffer yields the
first `min (bytes.length) 3584` bytes, the buffer remaining zero beyond
them; the copy loop then writes all 3584 buffer cells to
`memory[0x200..0x1000]`.  The `Bool` result records `Ok`/`Err`. -/
def load_game (readResult : Option (List Nat)) (st : Chip8) : Chip8 × Bool :=
  match readResult with
  | none => (st, false)
  | some bytes =>
    ({ st with
        memory := (List.range 3584).foldl
          (fun m j => Function.update m (0x200 + j) (bytes.getD j 0)) st.memory },
     true)

/-- `Chip8::return_subroutine`: load `pc` from `stack[sp]`
(aborts when `sp > 15`), then decrement `sp` only when it is positive. -/
def return_subroutine (st : Chip8) : Option Chip8 :=
  if st.sp < 16 then
    some { st with
      pc := st.stack st.sp,
      sp := if 0 < st.sp then st.sp - 1 else st.sp }
  else none

/-- `Chip8::call_subroutine_at_nnn`: increment `sp`, store `pc + 2` in
`stack[sp]` (aborts when the incremented `sp` exceeds 15), jump to
`nnn`. -/
def call_subroutine_at_nnn (nnn : Nat) (st : Chip8) : Option Chip8 :=
  if st.sp + 1 < 16 then
    some { st with
      sp := st.sp + 1,
      stack := Function.update st.stack (st.sp + 1) (u16add st.pc 2),
      pc := nnn }
  else none

/-- `Chip8::skip_if_vx_equals_nn`. -/
def skip_if_vx_equals_nn (x nn : Nat) (st : Chip8) : Chip8 :=
  { st with pc := if st.v x = nn then u16add (u16add st.pc 2) 2 else u16add st.pc 2 }

/-- `Chip8::skip_if_vx_not_equal_nn`. -/
def skip_if_vx_not_equal_nn (x nn : Nat) (st : Chip8) : Chip8 :=
  { st with pc := if st.v x ≠ nn then u16add (u16add st.pc 2) 2 else u16add st.pc 2 }

/-- `Chip8::skip_if_vx_equals_vy`. -/
def skip_if_vx_equals_vy (x y : Nat) (st : Chip8) : Chip8 :=
  { st with pc := if st.v x = st.v y then u16add (u16add st.pc 2) 2 else u16add st.pc 2 }

/-- `Chip8::vx_equals_nn`. -/
def vx_equals_nn (x nn : Nat) (st : Chip8) : Chip8 :=
  { st with v := Function.update st.v x nn, pc := u16add st.pc 2 }

/-- `Chip8::vx_plus_equals_nn`: `checked_add` is `None` exactly when the
byte sum exceeds 255, in which case the wrapped sum is assigned. -/
def vx_plus_equals_nn (x nn : Nat) (st : Chip8) : Chip8 :=
  { st with
    v := Function.update st.v x
      (if 255 < st.v x + nn then (st.v x + nn) % 256 else st.v x + nn),
    pc := u16add st.pc 2 }

/-- `Chip8::vx_assign_vy`. -/
def vx_assign_vy (x y : Nat) (st : Chip8) : Chip8 :=
  { st with v := Function.update st.v x (st.v y), pc := u16add st.pc 2 }

/-- `Chip8::vx_assign_or_vy`. -/
def vx_assign_or_vy (x y : Nat) (st : Chip8) : Chip8 :=
  { st with v := Function.update st.v x (st.v x ||| st.v y), pc := u16add st.pc 2 }

/-- `Chip8::vx_assign_and_vy`. -/
def vx_assign_and_vy (x y : Nat) (st : Chip8) : Chip8 :=
  { st with v := Function.update st.v x (st.v x &&& st.v y), pc := u16add st.pc 2 }

/-- `Chip8::vx_assign_xor_vy`. -/
def vx_assign_xor_vy (x y : Nat) (st : Chip8) : Chip8 :=
  { st with v := Function.update st.v x (st.v x ^^^ st.v y), pc := u16add st.pc 2 }

/-- `Chip8::vx_assign_plus_vy`.  The carry test uses the registers as
they are before any write; the flag `V[0xF]` is written first, and the
sum is then computed from the registers **after** that flag write (the
source re-reads `self.v`), which matters when `x` or `y` is `0xF`.  The
`u16` subtraction underflows (aborting a debug build, wrapping a release
build) only in that aliased corner; wrapping is modelled. -/
def vx_assign_plus_vy (x y : Nat) (st : Chip8) : Chip8 :=
  { st with
    v :=
      if 255 - st.v y < st.v x then
        let v1 := Function.update st.v 0xF 1
        Function.update v1 x (u16sub (u16add (v1 y) (v1 x)) 256 % 256)
      else
        let v1 := Function.update st.v 0xF 0
        Function.update v1 x (v1 x + v1 y),
    pc := u16add st.pc 2 }

/-- `Chip8::vx_assign_minus_vy`.  The borrow test compares the registers
before any write; the flag is written first and the difference is then
computed from the registers after that write. -/
def vx_assign_minus_vy (x y : Nat) (st : Chip8) : Chip8 :=
  { st with
    v :=
      if st.v x < st.v y then
        let v1 := Function.update st.v 0xF 0
        Function.update v1 x (u16sub (v1 x + 256) (v1 y) % 256)
      else
        let v1 := Function.update st.v 0xF 1
        Function.update v1 x (u8sub (v1 x) (v1 y)),
    pc := u16add st.pc 2 }

/-- `Chip8::vx_assign_rshift`: flag gets the pre-shift low bit. -/
def vx_assign_rshift (x : Nat) (st : Chip8) : Chip8 :=
  let v1 := Function.update st.v 0xF (st.v x &&& 1)
  { st with v := Function.update v1 x (v1 x >>> 1), pc := u16add st.pc 2 }

/-- `Chip8::vx_assign_vy_minus_vx`. -/
def vx_assign_vy_minus_vx (x y : Nat) (st : Chip8) : Chip8 :=
  { st with
    v :=
      if st.v y < st.v x then
        let v1 := Function.update st.v 0xF 0
        Function.update v1 x (u16sub (v1 y + 256) (v1 x) % 256)
      else
        let v1 := Function.update st.v 0xF 1
        Function.update v1 x (u8sub (v1 y) (v1 x)),
    pc := u16add st.pc 2 }

/-- `Chip8::vx_assign_lshift`: flag gets the pre-shift high bit; `u8`
left shift discards the high bit (`% 256`). -/
def vx_assign_lshift (x : Nat) (st : Chip8) : Chip8 :=
  let v1 := Function.update st.v 0xF (st.v x >>> 7)
  { st with v := Function.update v1 x ((v1 x <<< 1) % 256), pc := u16add st.pc 2 }

/-- `Chip8::skip_if_vx_not_equal_vy`. -/
def skip_if_vx_not_equal_vy (x y : Nat) (st : Chip8) : Chip8 :=
  { st with pc := if st.v x ≠ st.v y then u16add (u16add st.pc 2) 2 else u16add st.pc 2 }

/-- `Chip8::vx_equals_rand`: `r` is the byte produced by
`rand::thread_rng().gen_range(0..=255)`, passed in as an oracle. -/
def vx_equals_rand (r : Nat) (x nn : Nat) (st : Chip8) : Chip8 :=
  { st with v := Function.update st.v x (r &&& nn), pc := u16add st.pc 2 }

/-- One iteration of the inner pixel loop of `Chip8::draw`: compute the
wrapped column from the **current** `V[x]`, extract the sprite bit, OR
the collision bit into `V[0xF]`, then XOR the sprite bit into the
framebuffer cell. -/
def drawPixelStep (x sprite vy : Nat) (st : Chip8) (pixel : Nat) : Chip8 :=
  let vx := (st.v x + pixel) % 64
  let color := (sprite >>> (7 - pixel)) &&& 1
  let st1 := { st with v := Function.update st.v 0xF (st.v 0xF ||| (color &&& st.gfx vy vx)) }
  { st1 with
    gfx := Function.update st1.gfx vy
      (Function.update (st1.gfx vy) vx (st1.gfx vy vx ^^^ color)) }

/-- One iteration of the outer row loop of `Chip8::draw`: compute the
wrapped row from the current `V[y]`, read the sprite byte at `I + row`,
and run the 8-pixel inner loop. -/
def drawRowStep (x y : Nat) (st : Chip8) (row : Nat) : Chip8 :=
  let vy := (st.v y + row) % 32
  let sprite := st.memory (st.i + row)
  (List.range 8).foldl (drawPixelStep x sprite vy) st

/-- `Chip8::draw`: reset `V[0xF]`, blit `n` sprite rows read from
`memory[I..I+n]` with XOR compositing and collision tracking, set the
draw flag and advance.  When a sprite byte would be read past the end of
the 4096-cell memory array the Rust program aborts; that is the `none`
case. -/
def draw (x y n : Nat) (st : Chip8) : Option Chip8 :=
  if n ≠ 0 ∧ 4096 < st.i + n then none
  else
    let st0 := { st with v := Function.update st.v 0xF 0 }
    let st1 := (List.range n).foldl (drawRowStep x y) st0
    some { st1 with screen_updated := true, pc := u16add st1.pc 2 }

/-- `Chip8::skip_if_key_pressed`: indexes `keys` by the value of `V[x]`,
which aborts when that value exceeds 15. -/
def skip_if_key_pressed (x : Nat) (st : Chip8) : Option Chip8 :=
  if st.v x < 16 then
    some { st with
      pc := if st.keys (st.v x) ≠ 0 then u16add (u16add st.pc 2) 2 else u16add st.pc 2 }
  else none

/-- `Chip8::skip_if_key_not_pressed`. -/
def skip_if_key_not_pressed (x : Nat) (st : Chip8) : Option Chip8 :=
  if st.v x < 16 then
    some { st with
      pc := if st.keys (st.v x) = 0 then u16add (u16add st.pc 2) 2 else u16add st.pc 2 }
  else none

/-- `Chip8::vx_assign_delay`. -/
def vx_assign_delay (x : Nat) (st : Chip8) : Chip8 :=
  { st with v := Function.update st.v x st.delay_timer, pc := u16add st.pc 2 }

/-- `Chip8::vx_assign_key`: the body runs only when
`self.keys.contains(&255)`; it then assigns the index of the **first
nonzero** key entry to `V[x]` and advances the counter.  When no key
entry equals 255 the state is left entirely unchanged (the counter is
not advanced). -/
def vx_assign_key (x : Nat) (st : Chip8) : Chip8 :=
  { st with
    v :=
      if (List.range 16).any (fun j => st.keys j == 255) then
        match (List.range 16).find? (fun j => st.keys j != 0) with
        | some j => Function.update st.v x j
        | none => st.v
      else st.v,
    pc :=
      if (List.range 16).any (fun j => st.keys j == 255) then u16add st.pc 2
      else st.pc }

/-- `Chip8::set_delay_timer`. -/
def set_delay_timer (x : Nat) (st : Chip8) : Chip8 :=
  { st with delay_timer := st.v x, pc := u16add st.pc 2 }

/-- `Chip8::set_sound_timer`. -/
def set_sound_timer (x : Nat) (st : Chip8) : Chip8 :=
  { st with sound_timer := st.v x, pc := u16add st.pc 2 }

/-- `Chip8::index_assign_plus_vx` (16-bit wrapping add, no flag). -/
def index_assign_plus_vx (x : Nat) (st : Chip8) : Chip8 :=
  { st with i := u16add st.i (st.v x), pc := u16add st.pc 2 }

/-- `Chip8::index_assign_sprite`: `I` points at the 5-byte glyph of the
low nibble of `V[x]`. -/
def index_assign_sprite (x : Nat) (st : Chip8) : Chip8 :=
  { st with i := (st.v x &&& 0xF) * 5, pc := u16add st.pc 2 }

/-- `Chip8::set_bcd`: write the decimal digits of `V[x]` at
`memory[I..I+3]`; aborts when `I + 2` is out of range. -/
def set_bcd (x : Nat) (st : Chip8) : Option Chip8 :=
  if st.i + 2 < 4096 then
    some { st with
      memory :=
        Function.update
          (Function.update
            (Function.update st.memory st.i (st.v x / 100))
            (st.i + 1) (st.v x % 100 / 10))
          (st.i + 2) (st.v x % 10),
      pc := u16add st.pc 2 }
  else none

/-- `Chip8::reg_dump`: `memory[I+r] := V[r]` for `r` in `0..=x`;
aborts when `I + x` is out of range. -/
def reg_dump (x : Nat) (st : Chip8) : Option Chip8 :=
  if st.i + x < 4096 then
    some { st with
      memory := (List.range (x + 1)).foldl
        (fun m r => Function.update m (st.i + r) (st.v r)) st.memory,
      pc := u16add st.pc 2 }
  else none

/-- `Chip8::reg_load`: `V[r] := memory[I+r]` for `r` in `0..=x`;
aborts when `I + x` is out of range. -/
def reg_load (x : Nat) (st : Chip8) : Option Chip8 :=
  if st.i + x < 4096 then
    some { st with
      v := (List.range (x + 1)).foldl
        (fun w r => Function.update w r (st.memory (st.i + r))) st.v,
      pc := u16add st.pc 2 }
  else none

/-- The `0x0***` family of `Chip8::execute_opcode`: clear screen,
return, or decode abort. -/
def dispatch0 (st : Chip8) : Option Chip8 :=
  if st.opcode &&& 0x00FF = 0x00E0 then
    some { st with gfx := fun _ _ => 0, screen_updated := true, pc := u16add st.pc 2 }
  else if st.opcode &&& 0x00FF = 0x00EE then return_subroutine st
  else none

/-- The `0x8***` family of `Chip8::execute_opcode`: the register-register
ALU operations, dispatched on the low nibble. -/
def dispatch8 (st : Chip8) (x y : Nat) : Option Chip8 :=
  if st.opcode &&& 0x000F = 0x0000 then some (vx_assign_vy x y st)
  else if st.opcode &&& 0x000F = 0x0001 then some (vx_assign_or_vy x y st)
  else if st.opcode &&& 0x000F = 0x0002 then some (vx_assign_and_vy x y st)
  else if st.opcode &&& 0x000F = 0x0003 then some (vx_assign_xor_vy x y st)
  else if st.opcode &&& 0x000F = 0x0004 then some (vx_assign_plus_vy x y st)
  else if st.opcode &&& 0x000F = 0x0005 then some (vx_assign_minus_vy x y st)
  else if st.opcode &&& 0x000F = 0x0006 then some (vx_assign_rshift x st)
  else if st.opcode &&& 0x000F = 0x0007 then some (vx_assign_vy_minus_vx x y st)
  else if st.opcode &&& 0x000F = 0x000E then some (vx_assign_lshift x st)
  else none

/-- The `0xE***` family of `Chip8::execute_opcode`: key-skip tests,
dispatched on the low nibble. -/
def dispatchE (st : Chip8) (x : Nat) : Option Chip8 :=
  if st.opcode &&& 0x000F = 0x000E then skip_if_key_pressed x st
  else if st.opcode &&& 0x000F = 0x0001 then skip_if_key_not_pressed x st
  else none

/-- The `0xF***` family of `Chip8::execute_opcode`, dispatched on the
low byte. -/
def dispatchF (st : Chip8) (x : Nat) : Option Chip8 :=
  if st.opcode &&& 0x00FF = 0x0007 then some (vx_assign_delay x st)
  else if st.opcode &&& 0x00FF = 0x000A then some (vx_assign_key x st)
  else if st.opcode &&& 0x00FF = 0x0015 then some (set_delay_timer x st)
  else if st.opcode &&& 0x00FF = 0x0018 then some (set_sound_timer x st)
  else if st.opcode &&& 0x00FF = 0x001E then some (index_assign_plus_vx x st)
  else if st.opcode &&& 0x00FF = 0x0029 then some (index_assign_sprite x st)
  else if st.opcode &&& 0x00FF = 0x0033 then set_bcd x st
  else if st.opcode &&& 0x00FF = 0x0055 then reg_dump x st
  else if st.opcode &&& 0x00FF = 0x0065 then reg_load x st
  else none

/-- The body of `Chip8::execute_opcode`: the two-level dispatch on
`self.opcode`, parameterised by the operand fields `x`, `y`, `n`, `nn`,
`nnn` that the source binds at the top of the function, and by the
oracle byte `r` for the `Cxnn` instruction.  Every `panic!` arm of the
source (unknown opcode) is `none`. -/
def opcodeDispatch (r : Nat) (st : Chip8) (x y n nn nnn : Nat) : Option Chip8 :=
  if st.opcode &&& 0xF000 = 0x0000 then dispatch0 st
  else if st.opcode &&& 0xF000 = 0x1000 then
    some { st with pc := st.opcode &&& 0x0FFF }
  else if st.opcode &&& 0xF000 = 0x2000 then call_subroutine_at_nnn nnn st
  else if st.opcode &&& 0xF000 = 0x3000 then some (skip_if_vx_equals_nn x nn st)
  else if st.opcode &&& 0xF000 = 0x4000 then some (skip_if_vx_not_equal_nn x nn st)
  else if st.opcode &&& 0xF000 = 0x5000 then some (skip_if_vx_equals_vy x y st)
  else if st.opcode &&& 0xF000 = 0x6000 then some (vx_equals_nn x nn st)
  else if st.opcode &&& 0xF000 = 0x7000 then some (vx_plus_equals_nn x nn st)
  else if st.opcode &&& 0xF000 = 0x8000 then dispatch8 st x y
  else if st.opcode &&& 0xF000 = 0x9000 then some (skip_if_vx_not_equal_vy x y st)
  else if st.opcode &&& 0xF000 = 0xA000 then
    some { st with i := nnn, pc := u16add st.pc 2 }
  else if st.opcode &&& 0xF000 = 0xB000 then
    some { st with pc := u16add (st.v 0) nnn }
  else if st.opcode &&& 0xF000 = 0xC000 then some (vx_equals_rand r x nn st)
  else if st.opcode &&& 0xF000 = 0xD000 then draw x y n st
  else if st.opcode &&& 0xF000 = 0xE000 then dispatchE st x
  else if st.opcode &&& 0xF000 = 0xF000 then dispatchF st x
  else none

/-- `Chip8::execute_opcode`: extract the operand fields from
`self.opcode` and dispatch. -/
def execute_opcode (r : Nat) (st : Chip8) : Option Chip8 :=
  opcodeDispatch r st ((st.opcode &&& 0x0F00) >>> 8) ((st.opcode &&& 0x00F0) >>> 4)
    (st.opcode &&& 0x000F) (st.opcode &&& 0x00FF) (st.opcode &&& 0x0FFF)

/-- The 16-bit instruction word fetched at `pc` (high byte first). -/
def fetchOp (st : Chip8) : Nat :=
  (st.memory st.pc <<< 8) ||| st.memory (st.pc + 1)

/-- `Chip8::emulate_cycle`: fetch (aborting when `pc + 1` is out of the
4096-cell memory), execute, then decrement each timer that is strictly
positive.  An `Err`/`panic!`-arm outcome of `execute_opcode` aborts the
program before the timer update. -/
def emulate_cycle (r : Nat) (st : Chip8) : Option Chip8 :=
  if st.pc + 1 < 4096 then
    match execute_opcode r { st with opcode := fetchOp st } with
    | some st2 =>
      some { st2 with
        delay_timer := if 0 < st2.delay_timer then st2.delay_timer - 1 else st2.delay_timer,
        sound_timer := if 0 < st2.sound_timer then st2.sound_timer - 1 else st2.sound_timer }
    | none => none
  else none

/-- States of the Machine reachable by the host through the public
interface: construction, loading, key replacement, draw-flag reads and
emulation cycles. -/
inductive Reachable : Chip8 → Prop where
  | init : Reachable chip8Default
  | load (bs : Option (List Nat)) {st : Chip8} :
      Reachable st → Reachable (load_game bs st).1
  | keys (ks : Nat → Nat) {st : Chip8} :
      Reachable st → Reachable (set_keys ks st)
  | flag {st : Chip8} : Reachable st → Reachable (draw_flag st)
  | step (r : Nat) {st st' : Chip8} :
      Reachable st → emulate_cycle r st = some st' → Reachable st'

/-! Proof infrastructure: a pointwise description of the XOR blit. -/

/-- XOR the value `c` into cell `(a, b)` of a framebuffer, recording the
shape of one gfx update of `drawPixelStep`. -/
def pointXor (g : Nat → Nat → Nat) (a b c : Nat) : Nat → Nat → Nat :=
  Function.update g a (Function.update (g a) b (g a b ^^^ c))

/-- The pure framebuffer effect of one sprite row. -/
def blitRow (x0 sprite vy : Nat) (g : Nat → Nat → Nat) : Nat → Nat → Nat :=
  (List.range 8).foldl
    (fun g p => pointXor g vy ((x0 + p) % 64) ((sprite >>> (7 - p)) &&& 1)) g

/-- The pure framebuffer effect of a whole `draw` with `V[x] = x0`,
`V[y] = y0`, memory `mem` and index register `iReg`. -/
def blit (x0 y0 : Nat) (mem : Nat → Nat) (iReg n : Nat)
    (g : Nat → Nat → Nat) : Nat → Nat → Nat :=
  (List.range n).foldl
    (fun g row => blitRow x0 (mem (iReg + row)) ((y0 + row) % 32) g) g

/-- XOR-sum of the values `C t` of the list entries whose target cell
`(A t, B t)` is `(r, c)`. -/
def maskGen (A B C : Nat → Nat) (r c : Nat) : List Nat → Nat
  | [] => 0
  | t :: L => (if r = A t ∧ c = B t then C t else 0) ^^^ maskGen A B C r c L

/-- XOR-sum of a family of per-cell masks. -/
def maskSum (M : Nat → Nat → Nat → Nat) (r c : Nat) : List Nat → Nat
  | [] => 0
  | t :: L => M t r c ^^^ maskSum M r c L

/-- Every in-range framebuffer cell holds a single bit. -/
def GfxFunBits (g : Nat → Nat → Nat) : Prop :=
  ∀ r c, r < 32 → c < 64 → g r c = 0 ∨ g r c = 1

/-- Every in-range cell of the machine's framebuffer holds a single bit. -/
def GfxBits (st : Chip8) : Prop := GfxFunBits st.gfx

/-! Concrete states used by witnesses and counterexamples. -/

/-- A state whose only nonzero key entry is key 0, pressed with the
truthy byte 1 (not the host's 255 encoding). -/
def keyStateOne : Chip8 :=
  { chip8Default with keys := Function.update (fun _ => 0) 0 1 }

/-- A state with key 0 held at value 1 and key 5 held at value 255. -/
def keyStateTwo : Chip8 :=
  { chip8Default with
      keys := Function.update (Function.update (fun _ => 0) 0 1) 5 255 }

/-- A state with `V[0] = 5` and `V[0xF] = 3`, all other registers 0. -/
def regState53 : Chip8 :=
  { chip8Default with v := Function.update (Function.update (fun _ => 0) 0 5) 15 3 }

/-- A state with the two-pixel sprite byte `0xC0` at address 0 and
`I = 0`: drawing it with `x = 0xF` makes the collision flag feed back
into the column coordinate. -/
def drawState : Chip8 :=
  { chip8Default with memory := Function.update (fun _ => 0) 0 0xC0, i := 0 }

/-- A state whose next instruction is `0xF015` (set delay timer from
`V[0]`) with `V[0] = 10` and both timers at 0. -/
def timerSetState : Chip8 :=
  { chip8Default with
      memory := Function.update (Function.update chip8Default.memory 0x200 0xF0) 0x201 0x15,
      v := Function.update (fun _ => 0) 0 10 }

/-- A state whose next instruction is the jump `0x1234`, with the delay
timer at 5. -/
def jumpState : Chip8 :=
  { chip8Default with
      memory := Function.update (Function.update chip8Default.memory 0x200 0x12) 0x201 0x34,
      delay_timer := 5 }

/-- A state with the jump opcode `0x1234` already fetched. -/
def jumpFetched : Chip8 := { chip8Default with opcode := 0x1234 }

/-- A state whose call stack is full (`sp = 15`). -/
def fullStackState : Chip8 := { chip8Default with sp := 15 }

/-! Shared helper lemmas. -/

lemma range_fold_update (f : Nat → Nat) (base : Nat) :
    ∀ (k : Nat) (m : Nat → Nat) (a : Nat),
      ((List.range k).foldl (fun m j => Function.update m (base + j) (f j)) m) a
        = if base ≤ a ∧ a < base + k then f (a - base) else m a := by
  intro k
  induction k with
  | zero =>
    intro m a
    simp only [List.range_zero, List.foldl_nil]
    rw [if_neg (by omega)]
  | succ k ih =>
    intro m a
    rw [List.range_succ, List.foldl_append]
    simp only [List.foldl_cons, List.foldl_nil]
    rw [Function.update_apply, ih]
    by_cases hk : a = base + k
    · rw [if_pos hk, if_pos (by omega)]
      congr 1
      omega
    · rw [if_neg hk]
      by_cases hin : base ≤ a ∧ a < base + k
      · rw [if_pos hin, if_pos (by omega)]
      · rw [if_neg hin, if_neg (by omega)]

lemma getD_replicate (a : Nat) :
    ∀ (n j : Nat), j < n → (List.replicate n a).getD j 0 = a := by
  intro n
  induction n with
  | zero => omega
  | succ n ih =>
    intro j hj
    cases j with
    | zero => rfl
    | succ j => exact ih j (by omega)

lemma xor_bit (a b : Nat) (ha : a = 0 ∨ a = 1) (hb : b ≤ 1) :
    a ^^^ b = 0 ∨ a ^^^ b = 1 := by
  have hb' : b = 0 ∨ b = 1 := by omega
  rcases ha with rfl | rfl <;> rcases hb' with rfl | rfl <;> decide

/-! ### Claim C4 — register-register add (8xy4)

The spec's formula holds whenever neither operand register is the flag
register `V[0xF]`.  When `x` or `y` is `0xF` it fails, because the code
writes the carry flag into `V[0xF]` **before** computing the sum and
then re-reads the registers. -/

/-- Claim C4, counterexample: with `x = 0`, `y = 0xF`, `V[0] = 5`,
`V[0xF] = 3` the code leaves `V[0] = 5`, not `(5 + 3) mod 256 = 8`:
the flag write zeroes `V[0xF]` before the sum is formed. -/
theorem claim_C4_counterexample :
    (vx_assign_plus_vy 0 0xF regState53).v 0 ≠ (regState53.v 0 + regState53.v 0xF) % 256 ∧
    regState53.v 0 = 5 ∧ regState53.v 0xF = 3 ∧
    (vx_assign_plus_vy 0 0xF regState53).v 0 = 5 := by decide

/-- Claim C4 (amended: both register indices differ from `0xF`): the add
instruction stores `(a + b) mod 256` in `V[x]` and sets `V[0xF]` to 1
exactly when `a + b > 255`, the flag being computed from the pre-update
operands. -/
theorem claim_C4_amended (x y : Nat) (st : Chip8) (hx : x ≠ 0xF) (hy : y ≠ 0xF)
    (ha : st.v x ≤ 255) (hb : st.v y ≤ 255) :
    (vx_assign_plus_vy x y st).v x = (st.v x + st.v y) % 256 ∧
    (vx_assign_plus_vy x y st).v 0xF = if 255 < st.v x + st.v y then 1 else 0 := by
  have h15x : ¬((0xF : Nat) = x) := fun h => hx h.symm
  unfold vx_assign_plus_vy
  by_cases hc : 255 - st.v y < st.v x
  · constructor
    · simp only [if_pos hc, Function.update_same,
        Function.update_noteq hy, Function.update_noteq hx, u16add, u16sub]
      omega
    · simp only [if_pos hc, Function.update_apply, if_neg h15x, eq_self_iff_true, if_true]
      rw [if_pos (show 255 < st.v x + st.v y by omega)]
  · constructor
    · simp only [if_neg hc, Function.update_same,
        Function.update_noteq hy, Function.update_noteq hx]
      omega
    · simp only [if_neg hc, Function.update_apply, if_neg h15x, eq_self_iff_true, if_true]
      rw [if_neg (show ¬(255 < st.v x + st.v y) by omega)]

/-- Claim C4, witness at `x = 0`, `y = 1`, `V[0] = 5`, `V[1] = 0`. -/
theorem claim_C4_witness :
    ((0 : Nat) ≠ 0xF) ∧ ((1 : Nat) ≠ 0xF) ∧
    regState53.v 0 ≤ 255 ∧ regState53.v 1 ≤ 255 ∧
    ((vx_assign_plus_vy 0 1 regState53).v 0 = (regState53.v 0 + regState53.v 1) % 256 ∧
      (vx_assign_plus_vy 0 1 regState53).v 0xF =
        if 255 < regState53.v 0 + regState53.v 1 then 1 else 0) :=
  ⟨by decide, by decide, by decide, by decide,
    claim_C4_amended 0 1 regState53 (by decide) (by decide) (by decide) (by decide)⟩

/-! ### Claim C5 — register-register subtract (8xy5)

Same situation as C4: correct unless an operand register is `V[0xF]`. -/

/-- Claim C5, counterexample: with `x = 0`, `y = 0xF`, `V[0] = 5`,
`V[0xF] = 3` the code yields `V[0] = 4` (it subtracts the freshly
written borrow flag 1, not the operand 3), whereas the claim demands
`(5 - 3) mod 256 = 2`. -/
theorem claim_C5_counterexample :
    (vx_assign_minus_vy 0 0xF regState53).v 0 ≠ (regState53.v 0 + 256 - regState53.v 0xF) % 256 ∧
    regState53.v 0 = 5 ∧ regState53.v 0xF = 3 ∧
    (vx_assign_minus_vy 0 0xF regState53).v 0 = 4 := by decide

/-- Claim C5 (amended: both register indices differ from `0xF`): the
subtract instruction stores `(a - b) mod 256` (as `(a + 256 - b) mod
256`) in `V[x]` and sets `V[0xF]` to 1 exactly when `a ≥ b`. -/
theorem claim_C5_amended (x y : Nat) (st : Chip8) (hx : x ≠ 0xF) (hy : y ≠ 0xF)
    (ha : st.v x ≤ 255) (hb : st.v y ≤ 255) :
    (vx_assign_minus_vy x y st).v x = (st.v x + 256 - st.v y) % 256 ∧
    (vx_assign_minus_vy x y st).v 0xF = if st.v y ≤ st.v x then 1 else 0 := by
  have h15x : ¬((0xF : Nat) = x) := fun h => hx h.symm
  unfold vx_assign_minus_vy
  by_cases hc : st.v x < st.v y
  · constructor
    · simp only [if_pos hc, Function.update_same,
        Function.update_noteq hy, Function.update_noteq hx, u16sub]
      omega
    · simp only [if_pos hc, Function.update_apply, if_neg h15x, eq_self_iff_true, if_true]
      rw [if_neg (show ¬(st.v y ≤ st.v x) by omega)]
  · constructor
    · simp only [if_neg hc, Function.update_same,
        Function.update_noteq hy, Function.update_noteq hx, u8sub]
      omega
    · simp only [if_neg hc, Function.update_apply, if_neg h15x, eq_self_iff_true, if_true]
      rw [if_pos (show st.v y ≤ st.v x by omega)]

/-- Claim C5, witness at `x = 0`, `y = 1`, `V[0] = 5`, `V[1] = 0`. -/
theorem claim_C5_witness :
    ((0 : Nat) ≠ 0xF) ∧ ((1 : Nat) ≠ 0xF) ∧
    regState53.v 0 ≤ 255 ∧ regState53.v 1 ≤ 255 ∧
    ((vx_assign_minus_vy 0 1 regState53).v 0 = (regState53.v 0 + 256 - regState53.v 1) % 256 ∧
      (vx_assign_minus_vy 0 1 regState53).v 0xF =
        if regState53.v 1 ≤ regState53.v 0 then 1 else 0) :=
  ⟨by decide, by decide, by decide, by decide,
    claim_C5_amended 0 1 regState53 (by decide) (by decide) (by decide) (by decide)⟩

/-! ### Claim C1 — ROM loading

Loading a 3584-byte image does fill `0x200..0xFFF` exactly, and a
failed open/read touches no state; but an oversized image is **not**
rejected: `file.read` into the fixed 3584-byte buffer silently drops
everything past the first 3584 bytes. -/

/-- Claim C1, counterexample: a 3585-byte image is accepted (`Ok`), and
loading it leaves exactly the same memory as loading its first 3584
bytes — it is silently truncated, not rejected. -/
theorem claim_C1_counterexample :
    (load_game (some (List.replicate 3585 7)) chip8Default).2 = true ∧
    (List.replicate 3585 (7 : Nat)).length = 3585 ∧
    (load_game (some (List.replicate 3585 7)) chip8Default).1.memory
      = (load_game (some (List.replicate 3584 7)) chip8Default).1.memory := by
  refine ⟨rfl, by rw [List.length_replicate], ?_⟩
  funext a
  simp only [load_game]
  rw [range_fold_update, range_fold_update]
  by_cases h : 0x200 ≤ a ∧ a < 0x200 + 3584
  · rw [if_pos h, if_pos h,
      getD_replicate 7 3585 (a - 0x200) (by omega),
      getD_replicate 7 3584 (a - 0x200) (by omega)]
  · rw [if_neg h, if_neg h]

/-- Claim C1 (amended): a successful read is always accepted — the
first `min (length, 3584)` bytes are copied to `0x200..0xFFF` and the
rest of that region is zero-filled (`getD _ 0`), so a 3584-byte image
fills `0x200..0xFFF` exactly and a longer image is silently truncated;
memory outside `0x200..0xFFF` is untouched; a failed open/read returns
before any write, leaving the machine unchanged. -/
theorem claim_C1_amended (bytes : List Nat) (st : Chip8) (a : Nat) :
    (load_game (some bytes) st).2 = true ∧
    load_game none st = (st, false) ∧
    (0x200 ≤ a → a < 4096 →
      (load_game (some bytes) st).1.memory a = bytes.getD (a - 0x200) 0) ∧
    ((a < 0x200 ∨ 4096 ≤ a) →
      (load_game (some bytes) st).1.memory a = st.memory a) := by
  refine ⟨rfl, rfl, ?_, ?_⟩
  · intro h1 h2
    simp only [load_game]
    rw [range_fold_update, if_pos (by omega)]
  · intro h
    simp only [load_game]
    rw [range_fold_update, if_neg (by omega)]

/-- Claim C1, witness: loading the one-byte image `[0xAB]` writes it at
`0x200`, leaves `0x1FF` alone, and reports success. -/
theorem claim_C1_witness :
    (load_game (some [0xAB]) chip8Default).1.memory 0x200 = 0xAB ∧
    (load_game (some [0xAB]) chip8Default).1.memory 0x1FF = chip8Default.memory 0x1FF ∧
    (load_game (some [0xAB]) chip8Default).2 = true := by
  have h := claim_C1_amended [0xAB] chip8Default 0x200
  have h2 := claim_C1_amended [0xAB] chip8Default 0x1FF
  refine ⟨?_, h2.2.2.2 (by omega), h.1⟩
  have := h.2.2.1 (by omega) (by omega)
  simpa using this

/-! ### Claim C2 — blocking read-key (Fx0A)

The instruction does stall (no counter advance) while all key entries
are zero.  But its release trigger is `keys.contains(&255)`, not "some
entry is nonzero": a key held at any other truthy byte does not release
the wait. -/

/-- Claim C2, counterexample: key 0 pressed with the truthy byte 1 (a
nonzero entry), yet `vx_assign_key` does not advance the counter and
assigns nothing. -/
theorem claim_C2_counterexample :
    keyStateOne.keys 0 = 1 ∧
    (vx_assign_key 3 keyStateOne).pc = keyStateOne.pc ∧
    (vx_assign_key 3 keyStateOne).v 3 = keyStateOne.v 3 ∧
    keyStateOne.pc = 0x200 := by decide

/-- Claim C2 (amended): with all 16 key entries zero the instruction
changes nothing (the counter is not advanced, so it is retried); in
fact whenever **no** entry equals 255 — even if some entries hold other
nonzero truthy bytes — the state is left entirely unchanged; the wait
is released exactly when some entry equals 255 (the host's "pressed"
encoding), and then `V[x]` receives the index of the first **nonzero**
entry and the counter advances by 2. -/
theorem claim_C2_amended (x : Nat) (st : Chip8) :
    ((∀ j, j < 16 → st.keys j = 0) → vx_assign_key x st = st) ∧
    ((∀ j, j < 16 → st.keys j ≠ 255) → vx_assign_key x st = st) ∧
    (∀ j, (∃ k, k < 16 ∧ st.keys k = 255) →
      (List.range 16).find? (fun j2 => st.keys j2 != 0) = some j →
      (vx_assign_key x st).v x = j ∧
      (vx_assign_key x st).pc = u16add st.pc 2 ∧
      st.keys j ≠ 0 ∧ j < 16) := by
  have hstall : (∀ j, j < 16 → st.keys j ≠ 255) → vx_assign_key x st = st := by
    intro hall
    have hany : (List.range 16).any (fun j => st.keys j == 255) = false := by
      rw [List.any_eq_false]
      intro j hj
      simpa using hall j (List.mem_range.mp hj)
    unfold vx_assign_key
    rw [hany]
    rfl
  refine ⟨fun hz => hstall (fun j hj => by rw [hz j hj]; decide), hstall, ?_⟩
  intro j hex hfind
  have hany : (List.range 16).any (fun j2 => st.keys j2 == 255) = true := by
    rcases hex with ⟨k, hk, hk255⟩
    rw [List.any_eq_true]
    exact ⟨k, List.mem_range.mpr hk, by rw [hk255]; rfl⟩
  have hmem : j < 16 := List.mem_range.mp (List.mem_of_find?_eq_some hfind)
  have hne : st.keys j ≠ 0 := by
    have := List.find?_some hfind
    simpa using this
  unfold vx_assign_key
  rw [hany, hfind]
  refine ⟨?_, rfl, hne, hmem⟩
  simp [Function.update_same]

/-- Claim C2, witness: the all-zero key state stalls; the state with
key 0 pressed at byte 1 (nonzero but not 255) also stalls unchanged;
with key 0 at 1 and key 5 at 255 the wait releases and `V[3]` gets
index 0 (the first nonzero entry). -/
theorem claim_C2_witness :
    vx_assign_key 3 chip8Default = chip8Default ∧
    vx_assign_key 3 keyStateOne = keyStateOne ∧
    ((vx_assign_key 3 keyStateTwo).v 3 = 0 ∧
      (vx_assign_key 3 keyStateTwo).pc = u16add keyStateTwo.pc 2 ∧
      keyStateTwo.keys 0 ≠ 0 ∧ (0 : Nat) < 16) :=
  ⟨(claim_C2_amended 3 chip8Default).1 (fun _ _ => rfl),
    (claim_C2_amended 3 keyStateOne).2.1 (by decide),
    (claim_C2_amended 3 keyStateTwo).2.2 0 ⟨5, by decide, by decide⟩ (by decide)⟩

/-! ### Claim C6 — call immediately followed by return -/

/-- Claim C6: from any state with room on the stack, `call nnn` (which
pushes `pc + 2`) followed immediately by `return` leaves the counter at
(address of the call) + 2 and the stack pointer at its pre-call value. -/
theorem claim_C6 (st : Chip8) (nnn : Nat) (h : st.sp < 15) (hpc : st.pc + 2 < 65536) :
    ((call_subroutine_at_nnn nnn st).bind return_subroutine).map Chip8.pc
      = some (st.pc + 2) ∧
    ((call_subroutine_at_nnn nnn st).bind return_subroutine).map Chip8.sp
      = some st.sp := by
  rw [call_subroutine_at_nnn, if_pos (show st.sp + 1 < 16 by omega)]
  show (return_subroutine _).map Chip8.pc = _ ∧ (return_subroutine _).map Chip8.sp = _
  rw [return_subroutine]
  rw [if_pos (show st.sp + 1 < 16 by omega)]
  constructor
  · show some (Function.update st.stack (st.sp + 1) (u16add st.pc 2) (st.sp + 1)) = _
    rw [Function.update_same]
    unfold u16add
    rw [Nat.mod_eq_of_lt hpc]
  · show some (if 0 < st.sp + 1 then st.sp + 1 - 1 else st.sp + 1) = _
    rw [if_pos (by omega)]
    simp

/-- Claim C6, witness at the default state and `nnn = 0x300`. -/
theorem claim_C6_witness :
    chip8Default.sp < 15 ∧ chip8Default.pc + 2 < 65536 ∧
    (((call_subroutine_at_nnn 0x300 chip8Default).bind return_subroutine).map Chip8.pc
        = some (chip8Default.pc + 2) ∧
      ((call_subroutine_at_nnn 0x300 chip8Default).bind return_subroutine).map Chip8.sp
        = some chip8Default.sp) :=
  ⟨by decide, by decide, claim_C6 chip8Default 0x300 (by decide) (by decide)⟩

/-! ### Claim C7 — return on an empty stack

The stack pointer is indeed clamped at 0, but the operation is not a
full no-op: the program counter is still loaded from `stack[0]`. -/

/-- Claim C7, counterexample: returning from the default state (empty
stack) keeps `sp = 0` but moves the counter from `0x200` to
`stack[0] = 0` — machine state other than the stack pointer changes. -/
theorem claim_C7_counterexample :
    chip8Default.sp = 0 ∧
    (return_subroutine chip8Default).map Chip8.sp = some 0 ∧
    (return_subroutine chip8Default).map Chip8.pc = some 0 ∧
    chip8Default.pc = 0x200 := by decide

/-- Claim C7 (amended): a return with `sp = 0` is not a fatal error and
does not decrement the stack pointer below 0, but it is not a complete
no-op either: the counter is still loaded from `stack[0]`; every other
field is unchanged. -/
theorem claim_C7_amended (st : Chip8) (h : st.sp = 0) :
    return_subroutine st = some { st with pc := st.stack 0 } := by
  rw [return_subroutine, if_pos (by omega)]
  rw [h]
  simp

/-- Claim C7, witness at the default state. -/
theorem claim_C7_witness :
    chip8Default.sp = 0 ∧
    return_subroutine chip8Default
      = some { chip8Default with pc := chip8Default.stack 0 } :=
  ⟨rfl, claim_C7_amended chip8Default rfl⟩

/-! ### Claim C10 — call-stack layout and capacity -/

/-- Claim C10: `call` increments the stack pointer before storing, so a
call from `sp < 15` writes the return address into slot `sp + 1`
(between 1 and 15, never slot 0, whose content is preserved); a call
with `sp` already at 15 indexes past the 16-slot array and aborts
instead of using another slot, so at most 15 calls can be outstanding. -/
theorem claim_C10 (st : Chip8) (nnn : Nat) :
    (st.sp < 15 →
      ∃ st', call_subroutine_at_nnn nnn st = some st' ∧
        st'.sp = st.sp + 1 ∧ 1 ≤ st'.sp ∧ st'.sp ≤ 15 ∧
        st'.stack (st.sp + 1) = u16add st.pc 2 ∧
        st'.stack 0 = st.stack 0) ∧
    (15 ≤ st.sp → call_subroutine_at_nnn nnn st = none) := by
  constructor
  · intro h
    rw [call_subroutine_at_nnn, if_pos (by omega)]
    refine ⟨_, rfl, rfl, show 1 ≤ st.sp + 1 by omega, show st.sp + 1 ≤ 15 by omega, ?_, ?_⟩
    · show Function.update st.stack (st.sp + 1) (u16add st.pc 2) (st.sp + 1) = _
      rw [Function.update_same]
    · show Function.update st.stack (st.sp + 1) (u16add st.pc 2) 0 = _
      rw [Function.update_noteq (by omega)]
  · intro h
    rw [call_subroutine_at_nnn, if_neg (by omega)]

/-- Claim C10, witness: a call from the default state (`sp = 0`) and a
call from a full stack (`sp = 15`). -/
theorem claim_C10_witness :
    (chip8Default.sp < 15 ∧
      (∃ st', call_subroutine_at_nnn 0x300 chip8Default = some st' ∧
        st'.sp = chip8Default.sp + 1 ∧ 1 ≤ st'.sp ∧ st'.sp ≤ 15 ∧
        st'.stack (chip8Default.sp + 1) = u16add chip8Default.pc 2 ∧
        st'.stack 0 = chip8Default.stack 0)) ∧
    (15 ≤ fullStackState.sp ∧
      call_subroutine_at_nnn 0x300 fullStackState = none) :=
  ⟨⟨by decide, (claim_C10 chip8Default 0x300).1 (by decide)⟩,
    ⟨by decide, (claim_C10 fullStackState 0x300).2 (by decide)⟩⟩

/-! ### Claim C3 — XOR-blit involution of the sprite draw

Infrastructure: the framebuffer effect of `draw` is characterised as a
pure blit whenever neither coordinate register is the flag register
`V[0xF]`; each cell then receives an XOR mask that depends only on the
registers, memory and index register, so drawing twice cancels. -/

lemma drawPixelStep_v (x sprite vy : Nat) (st : Chip8) (p j : Nat) (hj : j ≠ 0xF) :
    (drawPixelStep x sprite vy st p).v j = st.v j :=
  Function.update_noteq hj _ _

lemma drawPixelStep_gfx (x sprite vy : Nat) (st : Chip8) (p : Nat) :
    (drawPixelStep x sprite vy st p).gfx
      = pointXor st.gfx vy ((st.v x + p) % 64) ((sprite >>> (7 - p)) &&& 1) := rfl

lemma pixFold_frame (x sprite vy : Nat) :
    ∀ (L : List Nat) (st : Chip8),
      ((L.foldl (drawPixelStep x sprite vy) st).memory = st.memory) ∧
      ((L.foldl (drawPixelStep x sprite vy) st).i = st.i) ∧
      ((L.foldl (drawPixelStep x sprite vy) st).pc = st.pc) ∧
      ((L.foldl (drawPixelStep x sprite vy) st).delay_timer = st.delay_timer) ∧
      ((L.foldl (drawPixelStep x sprite vy) st).sound_timer = st.sound_timer) ∧
      ((L.foldl (drawPixelStep x sprite vy) st).sp = st.sp) ∧
      ((L.foldl (drawPixelStep x sprite vy) st).stack = st.stack) ∧
      ((L.foldl (drawPixelStep x sprite vy) st).keys = st.keys) ∧
      ((L.foldl (drawPixelStep x sprite vy) st).opcode = st.opcode) ∧
      ((L.foldl (drawPixelStep x sprite vy) st).screen_updated = st.screen_updated) := by
  intro L
  induction L with
  | nil => intro st; exact ⟨rfl, rfl, rfl, rfl, rfl, rfl, rfl, rfl, rfl, rfl⟩
  | cons p L ih => intro st; exact ih (drawPixelStep x sprite vy st p)

lemma pixFold_v (x sprite vy : Nat) :
    ∀ (L : List Nat) (st : Chip8) (j : Nat), j ≠ 0xF →
      (L.foldl (drawPixelStep x sprite vy) st).v j = st.v j := by
  intro L
  induction L with
  | nil => intro st j _; rfl
  | cons p L ih =>
    intro st j hj
    simp only [List.foldl_cons]
    rw [ih (drawPixelStep x sprite vy st p) j hj]
    exact drawPixelStep_v x sprite vy st p j hj

lemma pixFold_gfx (x sprite vy : Nat) (hx : x ≠ 0xF) :
    ∀ (L : List Nat) (st : Chip8),
      (L.foldl (drawPixelStep x sprite vy) st).gfx
        = L.foldl
            (fun g p => pointXor g vy ((st.v x + p) % 64) ((sprite >>> (7 - p)) &&& 1))
            st.gfx := by
  intro L
  induction L with
  | nil => intro st; rfl
  | cons p L ih =>
    intro st
    simp only [List.foldl_cons]
    rw [ih (drawPixelStep x sprite vy st p)]
    rw [drawPixelStep_v x sprite vy st p x hx]
    rw [drawPixelStep_gfx]

lemma drawRowStep_v (x y : Nat) (st : Chip8) (row j : Nat) (hj : j ≠ 0xF) :
    (drawRowStep x y st row).v j = st.v j :=
  pixFold_v x (st.memory (st.i + row)) ((st.v y + row) % 32) (List.range 8) st j hj

lemma drawRowStep_gfx (x y : Nat) (hx : x ≠ 0xF) (st : Chip8) (row : Nat) :
    (drawRowStep x y st row).gfx
      = blitRow (st.v x) (st.memory (st.i + row)) ((st.v y + row) % 32) st.gfx :=
  pixFold_gfx x (st.memory (st.i + row)) ((st.v y + row) % 32) hx (List.range 8) st

lemma drawRowStep_memory (x y : Nat) (st : Chip8) (row : Nat) :
    (drawRowStep x y st row).memory = st.memory :=
  (pixFold_frame x (st.memory (st.i + row)) ((st.v y + row) % 32) (List.range 8) st).1

lemma drawRowStep_i (x y : Nat) (st : Chip8) (row : Nat) :
    (drawRowStep x y st row).i = st.i :=
  (pixFold_frame x (st.memory (st.i + row)) ((st.v y + row) % 32) (List.range 8) st).2.1

lemma rowFold_frame (x y : Nat) :
    ∀ (L : List Nat) (st : Chip8),
      ((L.foldl (drawRowStep x y) st).memory = st.memory) ∧
      ((L.foldl (drawRowStep x y) st).i = st.i) ∧
      ((L.foldl (drawRowStep x y) st).delay_timer = st.delay_timer) ∧
      ((L.foldl (drawRowStep x y) st).sound_timer = st.sound_timer) ∧
      ((L.foldl (drawRowStep x y) st).sp = st.sp) ∧
      ((L.foldl (drawRowStep x y) st).stack = st.stack) ∧
      ((L.foldl (drawRowStep x y) st).keys = st.keys) ∧
      ((L.foldl (drawRowStep x y) st).pc = st.pc) := by
  intro L
  induction L with
  | nil => intro st; exact ⟨rfl, rfl, rfl, rfl, rfl, rfl, rfl, rfl⟩
  | cons row L ih =>
    intro st
    simp only [List.foldl_cons]
    obtain ⟨m1, i1, d1, s1, p1, k1, y1, c1⟩ := ih (drawRowStep x y st row)
    obtain ⟨m0, i0, c0, d0, s0, p0, k0, y0, o0, u0⟩ :=
      pixFold_frame x (st.memory (st.i + row)) ((st.v y + row) % 32) (List.range 8) st
    exact ⟨m1.trans m0, i1.trans i0, d1.trans d0, s1.trans s0,
      p1.trans p0, k1.trans k0, y1.trans y0, c1.trans c0⟩

lemma rowFold_v (x y : Nat) :
    ∀ (L : List Nat) (st : Chip8) (j : Nat), j ≠ 0xF →
      (L.foldl (drawRowStep x y) st).v j = st.v j := by
  intro L
  induction L with
  | nil => intro st j _; rfl
  | cons row L ih =>
    intro st j hj
    simp only [List.foldl_cons]
    rw [ih (drawRowStep x y st row) j hj]
    exact drawRowStep_v x y st row j hj

lemma rowFold_gfx (x y : Nat) (hx : x ≠ 0xF) (hy : y ≠ 0xF) :
    ∀ (L : List Nat) (st : Chip8),
      (L.foldl (drawRowStep x y) st).gfx
        = L.foldl
            (fun g row => blitRow (st.v x) (st.memory (st.i + row)) ((st.v y + row) % 32) g)
            st.gfx := by
  intro L
  induction L with
  | nil => intro st; rfl
  | cons row L ih =>
    intro st
    simp only [List.foldl_cons]
    rw [ih (drawRowStep x y st row)]
    rw [drawRowStep_v x y st row x hx, drawRowStep_v x y st row y hy]
    rw [drawRowStep_memory x y st row, drawRowStep_i x y st row,
      drawRowStep_gfx x y hx]

/-- Purely framebuffer view of `draw`, valid when neither coordinate
register is the flag register. -/
lemma draw_eq (x y n : Nat) (hx : x ≠ 0xF) (hy : y ≠ 0xF) (st st' : Chip8)
    (h : draw x y n st = some st') :
    st'.gfx = blit (st.v x) (st.v y) st.memory st.i n st.gfx ∧
    (∀ j, j ≠ 0xF → st'.v j = st.v j) ∧
    st'.memory = st.memory ∧ st'.i = st.i := by
  unfold draw at h
  split at h
  · exact Option.noConfusion h
  · simp only [Option.some.injEq] at h
    subst h
    refine ⟨?_, ?_, ?_, ?_⟩
    · show ((List.range n).foldl (drawRowStep x y)
          { st with v := Function.update st.v 0xF 0 }).gfx = _
      rw [rowFold_gfx x y hx hy]
      rw [show ({ st with v := Function.update st.v 0xF 0 } : Chip8).v x = st.v x from
        Function.update_noteq hx _ _]
      rw [show ({ st with v := Function.update st.v 0xF 0 } : Chip8).v y = st.v y from
        Function.update_noteq hy _ _]
      rfl
    · intro j hj
      show ((List.range n).foldl (drawRowStep x y)
          { st with v := Function.update st.v 0xF 0 }).v j = _
      rw [rowFold_v x y (List.range n) _ j hj]
      exact Function.update_noteq hj _ _
    · exact (rowFold_frame x y (List.range n) _).1
    · exact (rowFold_frame x y (List.range n) _).2.1

lemma pointXor_apply (g : Nat → Nat → Nat) (a b c r s : Nat) :
    pointXor g a b c r s = if r = a ∧ s = b then g r s ^^^ c else g r s := by
  show (Function.update g a (Function.update (g a) b (g a b ^^^ c))) r s = _
  rw [Function.update_apply]
  by_cases hr : r = a
  · subst hr
    rw [if_pos rfl, Function.update_apply]
    by_cases hs : s = b
    · subst hs
      rw [if_pos rfl, if_pos ⟨rfl, rfl⟩]
    · rw [if_neg hs, if_neg (fun hc => hs hc.2)]
  · rw [if_neg hr, if_neg (fun hc => hr hc.1)]

lemma foldl_pointXor_apply (A B C : Nat → Nat) :
    ∀ (L : List Nat) (g : Nat → Nat → Nat) (r s : Nat),
      (L.foldl (fun g t => pointXor g (A t) (B t) (C t)) g) r s
        = g r s ^^^ maskGen A B C r s L := by
  intro L
  induction L with
  | nil =>
    intro g r s
    simp only [List.foldl_nil, maskGen]
    rw [Nat.xor_zero]
  | cons t L ih =>
    intro g r s
    simp only [List.foldl_cons, maskGen]
    rw [ih, pointXor_apply]
    by_cases hc : r = A t ∧ s = B t
    · rw [if_pos hc, if_pos hc, Nat.xor_assoc]
    · rw [if_neg hc, if_neg hc, Nat.zero_xor]

lemma blitRow_apply (x0 sprite vy : Nat) (g : Nat → Nat → Nat) (r s : Nat) :
    blitRow x0 sprite vy g r s
      = g r s ^^^ maskGen (fun _ => vy) (fun p => (x0 + p) % 64)
          (fun p => (sprite >>> (7 - p)) &&& 1) r s (List.range 8) :=
  foldl_pointXor_apply _ _ _ (List.range 8) g r s

lemma blit_apply (x0 y0 : Nat) (mem : Nat → Nat) (iReg : Nat) :
    ∀ (L : List Nat) (g : Nat → Nat → Nat) (r s : Nat),
      (L.foldl (fun g row =>
          blitRow x0 (mem (iReg + row)) ((y0 + row) % 32) g) g) r s
        = g r s ^^^ maskSum (fun row r s =>
            maskGen (fun _ => (y0 + row) % 32) (fun p => (x0 + p) % 64)
              (fun p => (mem (iReg + row) >>> (7 - p)) &&& 1) r s (List.range 8))
            r s L := by
  intro L
  induction L with
  | nil =>
    intro g r s
    simp only [List.foldl_nil, maskSum]
    rw [Nat.xor_zero]
  | cons row L ih =>
    intro g r s
    simp only [List.foldl_cons, maskSum]
    rw [ih, blitRow_apply, Nat.xor_assoc]

/-- Claim C3 (amended: both coordinate register indices differ from
`0xF`): executing `draw` twice in succession restores every framebuffer
cell — the registers, index register and sprite bytes read by the
second draw are automatically unchanged by the first, and each cell is
XORed twice with the same mask. -/
theorem claim_C3_amended (x y n : Nat) (st st1 st2 : Chip8)
    (hx : x ≠ 0xF) (hy : y ≠ 0xF)
    (h1 : draw x y n st = some st1) (h2 : draw x y n st1 = some st2)
    (r s : Nat) :
    st2.gfx r s = st.gfx r s := by
  obtain ⟨hg1, hv1, hm1, hi1⟩ := draw_eq x y n hx hy st st1 h1
  obtain ⟨hg2, hv2, hm2, hi2⟩ := draw_eq x y n hx hy st1 st2 h2
  rw [hg2, hv1 x hx, hv1 y hy, hm1, hi1, hg1]
  show ((List.range n).foldl _ (blit (st.v x) (st.v y) st.memory st.i n st.gfx)) r s = _
  rw [blit_apply]
  show (((List.range n).foldl _ st.gfx) r s) ^^^ _ = _
  rw [blit_apply]
  rw [Nat.xor_assoc, Nat.xor_self, Nat.xor_zero]

/-- Claim C3, counterexample: with `x = 0xF` (the flag register as
column source) the involution fails even though `V[x]`, `V[y]`, `n`,
`I` and the sprite byte are all identical before each draw: during the
second draw the first collision flips `V[0xF]` and shifts the remaining
columns, leaving pixel `(0,1)` lit. -/
theorem claim_C3_counterexample :
    (draw 0xF 0 1 drawState).map (fun s => s.v 0xF) = some (drawState.v 0xF) ∧
    (draw 0xF 0 1 drawState).map (fun s => s.v 0) = some (drawState.v 0) ∧
    (draw 0xF 0 1 drawState).map Chip8.i = some drawState.i ∧
    (draw 0xF 0 1 drawState).map (fun s => s.memory (s.i + 0))
      = some (drawState.memory (drawState.i + 0)) ∧
    ((draw 0xF 0 1 drawState).bind (draw 0xF 0 1)).map (fun s => s.gfx 0 1) = some 1 ∧
    drawState.gfx 0 1 = 0 := by decide

/-- Claim C3, witness: a double draw with `x = 0`, `y = 1` restores
pixel `(0,0)`. -/
theorem claim_C3_witness :
    ((draw 0 1 1 drawState).bind (draw 0 1 1)).map (fun s => s.gfx 0 0)
      = some (drawState.gfx 0 0) := by
  have hA : (draw 0 1 1 drawState).isSome = true := by decide
  have hB : ((draw 0 1 1 drawState).bind (draw 0 1 1)).isSome = true := by decide
  cases e1 : draw 0 1 1 drawState with
  | none => rw [e1] at hA; exact Bool.noConfusion hA
  | some s1 =>
    rw [e1] at hB
    simp only [Option.some_bind] at hB
    cases e2 : draw 0 1 1 s1 with
    | none => rw [e2] at hB; exact Bool.noConfusion hB
    | some s2 =>
      simp only [Option.some_bind, e2, Option.map_some]
      exact congrArg some
        (claim_C3_amended 0 1 1 drawState s1 s2 (by decide) (by decide) e1 e2 0 0)

/-! ### Frame lemmas for the fallible instruction handlers. -/

lemma return_subroutine_some (st st' : Chip8) (h : return_subroutine st = some st') :
    st'.gfx = st.gfx ∧ st'.delay_timer = st.delay_timer ∧
    st'.sound_timer = st.sound_timer := by
  unfold return_subroutine at h
  split at h
  · simp only [Option.some.injEq] at h
    subst h
    exact ⟨rfl, rfl, rfl⟩
  · exact Option.noConfusion h

lemma call_subroutine_some (nnn : Nat) (st st' : Chip8)
    (h : call_subroutine_at_nnn nnn st = some st') :
    st'.gfx = st.gfx ∧ st'.delay_timer = st.delay_timer ∧
    st'.sound_timer = st.sound_timer := by
  unfold call_subroutine_at_nnn at h
  split at h
  · simp only [Option.some.injEq] at h
    subst h
    exact ⟨rfl, rfl, rfl⟩
  · exact Option.noConfusion h

lemma set_bcd_some (x : Nat) (st st' : Chip8) (h : set_bcd x st = some st') :
    st'.gfx = st.gfx ∧ st'.delay_timer = st.delay_timer ∧
    st'.sound_timer = st.sound_timer := by
  unfold set_bcd at h
  split at h
  · simp only [Option.some.injEq] at h
    subst h
    exact ⟨rfl, rfl, rfl⟩
  · exact Option.noConfusion h

lemma reg_dump_some (x : Nat) (st st' : Chip8) (h : reg_dump x st = some st') :
    st'.gfx = st.gfx ∧ st'.delay_timer = st.delay_timer ∧
    st'.sound_timer = st.sound_timer := by
  unfold reg_dump at h
  split at h
  · simp only [Option.some.injEq] at h
    subst h
    exact ⟨rfl, rfl, rfl⟩
  · exact Option.noConfusion h

lemma reg_load_some (x : Nat) (st st' : Chip8) (h : reg_load x st = some st') :
    st'.gfx = st.gfx ∧ st'.delay_timer = st.delay_timer ∧
    st'.sound_timer = st.sound_timer := by
  unfold reg_load at h
  split at h
  · simp only [Option.some.injEq] at h
    subst h
    exact ⟨rfl, rfl, rfl⟩
  · exact Option.noConfusion h

lemma skip_if_key_pressed_some (x : Nat) (st st' : Chip8)
    (h : skip_if_key_pressed x st = some st') :
    st'.gfx = st.gfx ∧ st'.delay_timer = st.delay_timer ∧
    st'.sound_timer = st.sound_timer := by
  unfold skip_if_key_pressed at h
  split at h
  · simp only [Option.some.injEq] at h
    subst h
    exact ⟨rfl, rfl, rfl⟩
  · exact Option.noConfusion h

lemma skip_if_key_not_pressed_some (x : Nat) (st st' : Chip8)
    (h : skip_if_key_not_pressed x st = some st') :
    st'.gfx = st.gfx ∧ st'.delay_timer = st.delay_timer ∧
    st'.sound_timer = st.sound_timer := by
  unfold skip_if_key_not_pressed at h
  split at h
  · simp only [Option.some.injEq] at h
    subst h
    exact ⟨rfl, rfl, rfl⟩
  · exact Option.noConfusion h

lemma draw_some_frame (x y n : Nat) (st st' : Chip8) (h : draw x y n st = some st') :
    st'.delay_timer = st.delay_timer ∧ st'.sound_timer = st.sound_timer := by
  unfold draw at h
  split at h
  · exact Option.noConfusion h
  · simp only [Option.some.injEq] at h
    subst h
    exact ⟨(rowFold_frame x y (List.range n) _).2.2.1,
      (rowFold_frame x y (List.range n) _).2.2.2.1⟩

/-! ### Single-bit preservation of the framebuffer. -/

lemma pointXor_bits (g : Nat → Nat → Nat) (a b c : Nat)
    (hc : c ≤ 1) (h : GfxFunBits g) : GfxFunBits (pointXor g a b c) := by
  intro r s hr hs
  rw [pointXor_apply]
  by_cases hm : r = a ∧ s = b
  · rw [if_pos hm]
    exact xor_bit _ _ (h r s hr hs) hc
  · rw [if_neg hm]
    exact h r s hr hs

lemma pixFold_bits (x sprite vy : Nat) :
    ∀ (L : List Nat) (st : Chip8), GfxFunBits st.gfx →
      GfxFunBits ((L.foldl (drawPixelStep x sprite vy) st).gfx) := by
  intro L
  induction L with
  | nil => intro st hbb; exact hbb
  | cons p L ih =>
    intro st hbb
    simp only [List.foldl_cons]
    refine ih (drawPixelStep x sprite vy st p) ?_
    rw [drawPixelStep_gfx]
    exact pointXor_bits _ _ _ _ Nat.and_le_right hbb

lemma rowFold_bits (x y : Nat) :
    ∀ (L : List Nat) (st : Chip8), GfxFunBits st.gfx →
      GfxFunBits ((L.foldl (drawRowStep x y) st).gfx) := by
  intro L
  induction L with
  | nil => intro st hbb; exact hbb
  | cons row L ih =>
    intro st hbb
    simp only [List.foldl_cons]
    refine ih (drawRowStep x y st row) ?_
    exact pixFold_bits x (st.memory (st.i + row)) ((st.v y + row) % 32)
      (List.range 8) st hbb

lemma draw_bits (x y n : Nat) (st st' : Chip8) (h : draw x y n st = some st')
    (hb : GfxBits st) : GfxBits st' := by
  unfold draw at h
  split at h
  · exact Option.noConfusion h
  · simp only [Option.some.injEq] at h
    subst h
    exact rowFold_bits x y (List.range n) { st with v := Function.update st.v 0xF 0 } hb

/-! ### Dispatch-level frame lemmas. -/

/-- Family `0x0***`: only the clear-screen arm touches the framebuffer
(zeroing it); timers are untouched; the single-bit property is kept. -/
lemma dispatch0_some (st st' : Chip8) (h : dispatch0 st = some st') :
    (st.opcode &&& 0x00FF ≠ 0x00E0 → st'.gfx = st.gfx) ∧
    st'.delay_timer = st.delay_timer ∧ st'.sound_timer = st.sound_timer ∧
    (GfxBits st → GfxBits st') := by
  unfold dispatch0 at h
  repeat' split at h
  all_goals first
    | exact Option.noConfusion h
    | (simp only [Option.some.injEq] at h; subst h;
       exact ⟨fun hA => absurd (by assumption) hA, rfl, rfl,
         fun _ rr cc _ _ => Or.inl rfl⟩)
    | exact ⟨fun _ => (return_subroutine_some _ _ h).1,
        (return_subroutine_some _ _ h).2.1,
        (return_subroutine_some _ _ h).2.2,
        fun hb rr cc hr hc => by
          rw [(return_subroutine_some _ _ h).1]; exact hb rr cc hr hc⟩

/-- Family `0x8***`: framebuffer and timers untouched. -/
lemma dispatch8_some (st : Chip8) (x y : Nat) (st' : Chip8)
    (h : dispatch8 st x y = some st') :
    st'.gfx = st.gfx ∧ st'.delay_timer = st.delay_timer ∧
    st'.sound_timer = st.sound_timer := by
  unfold dispatch8 at h
  repeat' split at h
  all_goals first
    | exact Option.noConfusion h
    | (simp only [Option.some.injEq] at h; subst h; exact ⟨rfl, rfl, rfl⟩)

/-- Family `0xE***`: framebuffer and timers untouched. -/
lemma dispatchE_some (st : Chip8) (x : Nat) (st' : Chip8)
    (h : dispatchE st x = some st') :
    st'.gfx = st.gfx ∧ st'.delay_timer = st.delay_timer ∧
    st'.sound_timer = st.sound_timer := by
  unfold dispatchE at h
  repeat' split at h
  all_goals first
    | exact Option.noConfusion h
    | exact skip_if_key_pressed_some _ _ _ h
    | exact skip_if_key_not_pressed_some _ _ _ h

/-- Family `0xF***`: framebuffer untouched; each timer untouched unless
the arm is the matching set-timer. -/
lemma dispatchF_some (st : Chip8) (x : Nat) (st' : Chip8)
    (h : dispatchF st x = some st') :
    st'.gfx = st.gfx ∧
    (st.opcode &&& 0x00FF ≠ 0x0015 → st'.delay_timer = st.delay_timer) ∧
    (st.opcode &&& 0x00FF ≠ 0x0018 → st'.sound_timer = st.sound_timer) := by
  unfold dispatchF at h
  repeat' split at h
  all_goals first
    | exact Option.noConfusion h
    | (simp only [Option.some.injEq] at h; subst h;
       refine ⟨?_, fun hC => ?_, fun hD => ?_⟩ <;>
         first
           | rfl
           | exact absurd (by assumption) hC
           | exact absurd (by assumption) hD)
    | exact ⟨(set_bcd_some _ _ _ h).1,
        fun _ => (set_bcd_some _ _ _ h).2.1,
        fun _ => (set_bcd_some _ _ _ h).2.2⟩
    | exact ⟨(reg_dump_some _ _ _ h).1,
        fun _ => (reg_dump_some _ _ _ h).2.1,
        fun _ => (reg_dump_some _ _ _ h).2.2⟩
    | exact ⟨(reg_load_some _ _ _ h).1,
        fun _ => (reg_load_some _ _ _ h).2.1,
        fun _ => (reg_load_some _ _ _ h).2.2⟩

/-- Elimination form for one arm of an `if`-dispatch chain. -/
lemma ite_some_elim {c : Prop} [Decidable c] {A B : Option Chip8} {s : Chip8}
    (h : (if c then A else B) = some s) :
    (c ∧ A = some s) ∨ (¬c ∧ B = some s) := by
  split at h
  · exact Or.inl ⟨by assumption, h⟩
  · exact Or.inr ⟨by assumption, h⟩

/-- Framebuffer and timer frame conditions of one executed instruction:
the framebuffer is untouched unless the instruction is clear-screen or
draw, and each timer is untouched unless the instruction is the
matching set-timer. -/
lemma opcodeDispatch_frame (r : Nat) (st : Chip8) (x y n nn nnn : Nat) (st' : Chip8)
    (h : opcodeDispatch r st x y n nn nnn = some st') :
    (¬(st.opcode &&& 0xF000 = 0x0000 ∧ st.opcode &&& 0x00FF = 0x00E0) →
      st.opcode &&& 0xF000 ≠ 0xD000 → st'.gfx = st.gfx) ∧
    (¬(st.opcode &&& 0xF000 = 0xF000 ∧ st.opcode &&& 0x00FF = 0x0015) →
      st'.delay_timer = st.delay_timer) ∧
    (¬(st.opcode &&& 0xF000 = 0xF000 ∧ st.opcode &&& 0x00FF = 0x0018) →
      st'.sound_timer = st.sound_timer) := by
  unfold opcodeDispatch at h
  rcases ite_some_elim h with ⟨hop, h⟩ | ⟨_, h⟩
  · exact ⟨fun hA _ => (dispatch0_some _ _ h).1 (fun hE => hA ⟨hop, hE⟩),
      fun _ => (dispatch0_some _ _ h).2.1,
      fun _ => (dispatch0_some _ _ h).2.2.1⟩
  rcases ite_some_elim h with ⟨hop, h⟩ | ⟨_, h⟩
  · simp only [Option.some.injEq] at h; subst h
    exact ⟨fun _ _ => rfl, fun _ => rfl, fun _ => rfl⟩
  rcases ite_some_elim h with ⟨hop, h⟩ | ⟨_, h⟩
  · exact ⟨fun _ _ => (call_subroutine_some _ _ _ h).1,
      fun _ => (call_subroutine_some _ _ _ h).2.1,
      fun _ => (call_subroutine_some _ _ _ h).2.2⟩
  rcases ite_some_elim h with ⟨hop, h⟩ | ⟨_, h⟩
  · simp only [Option.some.injEq] at h; subst h
    exact ⟨fun _ _ => rfl, fun _ => rfl, fun _ => rfl⟩
  rcases ite_some_elim h with ⟨hop, h⟩ | ⟨_, h⟩
  · simp only [Option.some.injEq] at h; subst h
    exact ⟨fun _ _ => rfl, fun _ => rfl, fun _ => rfl⟩
  rcases ite_some_elim h with ⟨hop, h⟩ | ⟨_, h⟩
  · simp only [Option.some.injEq] at h; subst h
    exact ⟨fun _ _ => rfl, fun _ => rfl, fun _ => rfl⟩
  rcases ite_some_elim h with ⟨hop, h⟩ | ⟨_, h⟩
  · simp only [Option.some.injEq] at h; subst h
    exact ⟨fun _ _ => rfl, fun _ => rfl, fun _ => rfl⟩
  rcases ite_some_elim h with ⟨hop, h⟩ | ⟨_, h⟩
  · simp only [Option.some.injEq] at h; subst h
    exact ⟨fun _ _ => rfl, fun _ => rfl, fun _ => rfl⟩
  rcases ite_some_elim h with ⟨hop, h⟩ | ⟨_, h⟩
  · exact ⟨fun _ _ => (dispatch8_some _ _ _ _ h).1,
      fun _ => (dispatch8_some _ _ _ _ h).2.1,
      fun _ => (dispatch8_some _ _ _ _ h).2.2⟩
  rcases ite_some_elim h with ⟨hop, h⟩ | ⟨_, h⟩
  · simp only [Option.some.injEq] at h; subst h
    exact ⟨fun _ _ => rfl, fun _ => rfl, fun _ => rfl⟩
  rcases ite_some_elim h with ⟨hop, h⟩ | ⟨_, h⟩
  · simp only [Option.some.injEq] at h; subst h
    exact ⟨fun _ _ => rfl, fun _ => rfl, fun _ => rfl⟩
  rcases ite_some_elim h with ⟨hop, h⟩ | ⟨_, h⟩
  · simp only [Option.some.injEq] at h; subst h
    exact ⟨fun _ _ => rfl, fun _ => rfl, fun _ => rfl⟩
  rcases ite_some_elim h with ⟨hop, h⟩ | ⟨_, h⟩
  · simp only [Option.some.injEq] at h; subst h
    exact ⟨fun _ _ => rfl, fun _ => rfl, fun _ => rfl⟩
  rcases ite_some_elim h with ⟨hop, h⟩ | ⟨_, h⟩
  · exact ⟨fun _ hB => absurd hop hB,
      fun _ => (draw_some_frame _ _ _ _ _ h).1,
      fun _ => (draw_some_frame _ _ _ _ _ h).2⟩
  rcases ite_some_elim h with ⟨hop, h⟩ | ⟨_, h⟩
  · exact ⟨fun _ _ => (dispatchE_some _ _ _ h).1,
      fun _ => (dispatchE_some _ _ _ h).2.1,
      fun _ => (dispatchE_some _ _ _ h).2.2⟩
  rcases ite_some_elim h with ⟨hop, h⟩ | ⟨_, h⟩
  · exact ⟨fun _ _ => (dispatchF_some _ _ _ h).1,
      fun hC => (dispatchF_some _ _ _ h).2.1 (fun hE => hC ⟨hop, hE⟩),
      fun hD => (dispatchF_some _ _ _ h).2.2 (fun hE => hD ⟨hop, hE⟩)⟩
  exact Option.noConfusion h

/-- Every executed instruction keeps the framebuffer single-bit. -/
lemma opcodeDispatch_bits (r : Nat) (st : Chip8) (x y n nn nnn : Nat) (st' : Chip8)
    (h : opcodeDispatch r st x y n nn nnn = some st') (hb : GfxBits st) :
    GfxBits st' := by
  unfold opcodeDispatch at h
  rcases ite_some_elim h with ⟨hop, h⟩ | ⟨_, h⟩
  · exact (dispatch0_some _ _ h).2.2.2 hb
  rcases ite_some_elim h with ⟨hop, h⟩ | ⟨_, h⟩
  · simp only [Option.some.injEq] at h; subst h; exact hb
  rcases ite_some_elim h with ⟨hop, h⟩ | ⟨_, h⟩
  · intro rr cc hr hc
    rw [(call_subroutine_some _ _ _ h).1]; exact hb rr cc hr hc
  rcases ite_some_elim h with ⟨hop, h⟩ | ⟨_, h⟩
  · simp only [Option.some.injEq] at h; subst h; exact hb
  rcases ite_some_elim h with ⟨hop, h⟩ | ⟨_, h⟩
  · simp only [Option.some.injEq] at h; subst h; exact hb
  rcases ite_some_elim h with ⟨hop, h⟩ | ⟨_, h⟩
  · simp only [Option.some.injEq] at h; subst h; exact hb
  rcases ite_some_elim h with ⟨hop, h⟩ | ⟨_, h⟩
  · simp only [Option.some.injEq] at h; subst h; exact hb
  rcases ite_some_elim h with ⟨hop, h⟩ | ⟨_, h⟩
  · simp only [Option.some.injEq] at h; subst h; exact hb
  rcases ite_some_elim h with ⟨hop, h⟩ | ⟨_, h⟩
  · intro rr cc hr hc
    rw [(dispatch8_some _ _ _ _ h).1]; exact hb rr cc hr hc
  rcases ite_some_elim h with ⟨hop, h⟩ | ⟨_, h⟩
  · simp only [Option.some.injEq] at h; subst h; exact hb
  rcases ite_some_elim h with ⟨hop, h⟩ | ⟨_, h⟩
  · simp only [Option.some.injEq] at h; subst h; exact hb
  rcases ite_some_elim h with ⟨hop, h⟩ | ⟨_, h⟩
  · simp only [Option.some.injEq] at h; subst h; exact hb
  rcases ite_some_elim h with ⟨hop, h⟩ | ⟨_, h⟩
  · simp only [Option.some.injEq] at h; subst h; exact hb
  rcases ite_some_elim h with ⟨hop, h⟩ | ⟨_, h⟩
  · exact draw_bits _ _ _ _ _ h hb
  rcases ite_some_elim h with ⟨hop, h⟩ | ⟨_, h⟩
  · intro rr cc hr hc
    rw [(dispatchE_some _ _ _ h).1]; exact hb rr cc hr hc
  rcases ite_some_elim h with ⟨hop, h⟩ | ⟨_, h⟩
  · intro rr cc hr hc
    rw [(dispatchF_some _ _ _ h).1]; exact hb rr cc hr hc
  exact Option.noConfusion h

lemma execute_opcode_frame (r : Nat) (st st' : Chip8)
    (h : execute_opcode r st = some st') :
    (¬(st.opcode &&& 0xF000 = 0x0000 ∧ st.opcode &&& 0x00FF = 0x00E0) →
      st.opcode &&& 0xF000 ≠ 0xD000 → st'.gfx = st.gfx) ∧
    (¬(st.opcode &&& 0xF000 = 0xF000 ∧ st.opcode &&& 0x00FF = 0x0015) →
      st'.delay_timer = st.delay_timer) ∧
    (¬(st.opcode &&& 0xF000 = 0xF000 ∧ st.opcode &&& 0x00FF = 0x0018) →
      st'.sound_timer = st.sound_timer) := by
  unfold execute_opcode at h
  exact opcodeDispatch_frame _ _ _ _ _ _ _ _ h

lemma execute_opcode_bits (r : Nat) (st st' : Chip8)
    (h : execute_opcode r st = some st') (hb : GfxBits st) : GfxBits st' := by
  unfold execute_opcode at h
  exact opcodeDispatch_bits _ _ _ _ _ _ _ _ h hb

/-- Decomposition of one `emulate_cycle`: fetch, execute, then clamp-tick
both timers. -/
lemma emulate_cycle_cases (r : Nat) (st st' : Chip8)
    (h : emulate_cycle r st = some st') :
    ∃ st2, execute_opcode r { st with opcode := fetchOp st } = some st2 ∧
      st'.gfx = st2.gfx ∧
      st'.delay_timer
        = (if 0 < st2.delay_timer then st2.delay_timer - 1 else st2.delay_timer) ∧
      st'.sound_timer
        = (if 0 < st2.sound_timer then st2.sound_timer - 1 else st2.sound_timer) := by
  unfold emulate_cycle at h
  split at h
  · split at h
    next st2 heq =>
      simp only [Option.some.injEq] at h
      subst h
      exact ⟨st2, heq, rfl, rfl, rfl⟩
    next heq => exact Option.noConfusion h
  · exact Option.noConfusion h

/-! ### Claim C8 — timer decrement in `emulate_cycle`

The clamp-tick runs against the timer value **after** the instruction
executed; the set-delay/set-sound instructions therefore break the
claim as stated for the pre-step value, and a decode abort skips the
tick altogether. -/

/-- Claim C8, counterexample: the instruction `0xF015` with `V[0] = 10`
sets the delay timer and the tick then lands on the fresh value: a
delay timer that was 0 before `step()` is 9 afterwards, not 0. -/
theorem claim_C8_counterexample :
    timerSetState.delay_timer = 0 ∧
    (emulate_cycle 0 timerSetState).map Chip8.delay_timer = some 9 := by decide

/-- Claim C8 (amended): on every completed `step()` whose fetched
instruction is not set-delay (`Fx15`) the delay timer decrements by
exactly 1 when positive and stays 0 otherwise (never negative), and
likewise for the sound timer when the instruction is not set-sound
(`Fx18`). -/
theorem claim_C8_amended (r : Nat) (st st' : Chip8)
    (h : emulate_cycle r st = some st') :
    (¬(fetchOp st &&& 0xF000 = 0xF000 ∧ fetchOp st &&& 0x00FF = 0x0015) →
      st'.delay_timer
        = (if 0 < st.delay_timer then st.delay_timer - 1 else st.delay_timer)) ∧
    (¬(fetchOp st &&& 0xF000 = 0xF000 ∧ fetchOp st &&& 0x00FF = 0x0018) →
      st'.sound_timer
        = (if 0 < st.sound_timer then st.sound_timer - 1 else st.sound_timer)) := by
  obtain ⟨st2, hexec, _, hdel, hsou⟩ := emulate_cycle_cases r st st' h
  have hf := execute_opcode_frame r { st with opcode := fetchOp st } st2 hexec
  constructor
  · intro hd
    rw [hdel, hf.2.1 hd]
  · intro hs
    rw [hsou, hf.2.2 hs]

/-- Claim C8, witness: a jump instruction with the delay timer at 5 and
the sound timer at 0 yields 4 and 0. -/
theorem claim_C8_witness :
    ∃ st', emulate_cycle 0 jumpState = some st' ∧
      (st'.delay_timer
          = (if 0 < jumpState.delay_timer then jumpState.delay_timer - 1
             else jumpState.delay_timer) ∧
        st'.sound_timer
          = (if 0 < jumpState.sound_timer then jumpState.sound_timer - 1
             else jumpState.sound_timer)) := by
  have hA : (emulate_cycle 0 jumpState).isSome = true := by decide
  cases e : emulate_cycle 0 jumpState with
  | none => rw [e] at hA; exact Bool.noConfusion hA
  | some s =>
    exact ⟨s, rfl, (claim_C8_amended 0 jumpState s e).1 (by decide),
      (claim_C8_amended 0 jumpState s e).2 (by decide)⟩

/-! ### Claim C9 — single-bit framebuffer invariant -/

/-- Claim C9: every machine state reachable through the public
interface has a single-bit framebuffer (each in-range cell is 0 or 1),
and an executed instruction that is neither clear-screen (`00E0`) nor
draw (`Dxyn`) leaves the framebuffer untouched; the two mutating
instructions preserve the single-bit property (the reachability
invariant rests on `execute_opcode` preserving `GfxBits` in every
branch, including clear and draw). -/
theorem claim_C9 :
    (∀ st, Reachable st → ∀ r c, r < 32 → c < 64 →
      st.gfx r c = 0 ∨ st.gfx r c = 1) ∧
    (∀ r st st', execute_opcode r st = some st' →
      ¬(st.opcode &&& 0xF000 = 0x0000 ∧ st.opcode &&& 0x00FF = 0x00E0) →
      st.opcode &&& 0xF000 ≠ 0xD000 → st'.gfx = st.gfx) := by
  constructor
  · intro st hreach
    suffices hbits : GfxBits st by exact fun r c hr hc => hbits r c hr hc
    induction hreach with
    | init => intro r c _ _; left; rfl
    | load bs hst ih =>
      cases bs with
      | none => exact ih
      | some l => exact ih
    | keys ks hst ih => exact ih
    | flag hst ih => exact ih
    | step r hst hcyc ih =>
      obtain ⟨st2, hexec, hgfx, _, _⟩ := emulate_cycle_cases r _ _ hcyc
      have h2 : GfxBits st2 := execute_opcode_bits r _ st2 hexec ih
      intro rr cc hr hc
      rw [hgfx]
      exact h2 rr cc hr hc
  · intro r st st' h hcl hdr
    exact (execute_opcode_frame r st st' h).1 hcl hdr

/-- Claim C9, witness: the initial framebuffer cell `(3,5)` is a bit,
and executing the fetched jump `0x1234` leaves the framebuffer
untouched. -/
theorem claim_C9_witness :
    (chip8Default.gfx 3 5 = 0 ∨ chip8Default.gfx 3 5 = 1) ∧
    (∃ st', execute_opcode 0 jumpFetched = some st' ∧ st'.gfx = jumpFetched.gfx) := by
  constructor
  · exact claim_C9.1 chip8Default Reachable.init 3 5 (by omega) (by omega)
  · have hA : (execute_opcode 0 jumpFetched).isSome = true := by decide
    cases e : execute_opcode 0 jumpFetched with
    | none => rw [e] at hA; exact Bool.noConfusion hA
    | some s => exact ⟨s, rfl, claim_C9.2 0 jumpFetched s e (by decide) (by decide)⟩

end Chip8Emu
